import Mathlib

/-!
Verification development for the SpiderFoot excerpt consisting of the
control-panel server (`sfwebui.py`) and the VoIPBL reputation module
(`modules/sfp_voipbl.py`).

The Python code is shallowly embedded as executable Lean definitions.
Identifier-like strings (event types, module names, option keys, scan
statuses, result IDs) are kept as `String`; free-text content processing
(blocklist lines, IP parsing, the module's regular-expression checks) is
carried out over `List Char`, with the few needed Python string operations
(`split`, `strip`, `int`, `startswith`) re-implemented over character lists.

Operations of the persistence layer (`SpiderFootDb`) and of the shared
`SpiderFoot` service class are not part of the excerpted sources; where a
claim depends on them they are modelled from the specification text and
marked `Modelled from the spec:` in their doc comment.
-/

/-! ## Character-list string helpers -/

/-- Lexicographic boolean order on character lists by code point, the order
Python uses to compare and sort strings. -/
def chLe : List Char → List Char → Bool
  | [], _ => true
  | _ :: _, [] => false
  | a :: as, b :: bs => if a < b then true else if a = b then chLe as bs else false

/-- Python's string order: lexicographic by code point. -/
def strLe (a b : String) : Bool := chLe a.data b.data

/-- Python's `list.sort()` on strings: the unique `strLe`-sorted permutation
(the source sorts with `modlist.sort()`). -/
def sortStrings (l : List String) : List String :=
  List.insertionSort (fun a b => strLe a b = true) l

/-- Python's `str.split(sep)` over character lists (keeps empty fields,
`split('\n')` of the empty string is `[[]]`, like Python's `['']`). -/
def splitOnChar (sep : Char) : List Char → List (List Char)
  | [] => [[]]
  | c :: cs =>
    if c = sep then [] :: splitOnChar sep cs
    else
      match splitOnChar sep cs with
      | [] => [[c]]
      | l :: ls => (c :: l) :: ls

/-- Python's `str.strip()`: drop whitespace from both ends. -/
def trimChars (cs : List Char) : List Char :=
  ((cs.dropWhile Char.isWhitespace).reverse.dropWhile Char.isWhitespace).reverse

/-- Decimal value of a digit string. -/
def digitsVal (cs : List Char) : Nat :=
  cs.foldl (fun acc c => acc * 10 + (c.toNat - 48)) 0

/-- Parse a non-empty all-digit character list as a natural number
(Python's `int(...)` on the digit substrings produced by the module's
regular expressions). -/
def parseNatChars (cs : List Char) : Option Nat :=
  if cs ≠ [] ∧ cs.all Char.isDigit then some (digitsVal cs) else none

/-! ## IPv4 / CIDR model

Modelled from the spec: the module delegates address handling to the
`netaddr` library (`IPAddress`, `IPNetwork`), which is not part of the
excerpted sources; the spec's glossary fixes the contract as "standard CIDR
range membership test". An IPv4 address is modelled as its 32-bit value. -/

/-- Modelled from the spec: `netaddr.IPAddress` applied to a dotted-quad
IPv4 string — four dot-separated decimal octets, each at most 255; anything
else raises, which the caller treats as a skipped candidate. -/
def parseOctetChars (cs : List Char) : Option Nat :=
  if cs ≠ [] ∧ cs.all Char.isDigit then
    let v := digitsVal cs
    if v ≤ 255 then some v else none
  else none

/-- Parse a dotted-quad IPv4 character list to its 32-bit value. -/
def parseIPv4Chars (cs : List Char) : Option Nat :=
  match splitOnChar '.' cs with
  | [a, b, c, d] =>
    match parseOctetChars a, parseOctetChars b, parseOctetChars c, parseOctetChars d with
    | some x, some y, some z, some w => some (x * 16777216 + y * 65536 + z * 256 + w)
    | _, _, _, _ => none
  | _ => none

/-- Modelled from the spec: `netaddr.IPNetwork` — an address with an
optional `/prefix` (no slash means a host route, prefix 32). -/
def parseIPNetworkChars (cs : List Char) : Option (Nat × Nat) :=
  match splitOnChar '/' cs with
  | [a] => (parseIPv4Chars a).map (fun ip => (ip, 32))
  | [a, p] =>
    match parseIPv4Chars a, parseNatChars p with
    | some ip, some pr => if pr ≤ 32 then some (ip, pr) else none
    | _, _ => none
  | _ => none

/-- Standard CIDR range membership: the address and the network agree on the
upper `prefix` bits. -/
def inNetwork (ip : Nat) (net : Nat × Nat) : Bool :=
  ip / 2 ^ (32 - net.2) == net.1 / 2 ^ (32 - net.2)

/-! ## sfp_voipbl: options and module state -/

/-- A Python option value as stored in a module's `opts` dict. -/
inductive OptVal where
  | b : Bool → OptVal
  | n : Nat → OptVal
  | s : String → OptVal
deriving DecidableEq, Repr

/-- A Python dict of options, as an association list. -/
abbrev Opts := List (String × OptVal)

/-- Dict item assignment `opts[k] = v`: overwrite in place, append if new. -/
def optsSet (o : Opts) (k : String) (v : OptVal) : Opts :=
  match o with
  | [] => [(k, v)]
  | (k1, v1) :: rest => if k1 = k then (k, v) :: rest else (k1, v1) :: optsSet rest k v

/-- Dict lookup `opts[k]` returning `none` when the key is absent. -/
def optsGet (o : Opts) (k : String) : Option OptVal :=
  match o with
  | [] => none
  | (k1, v1) :: rest => if k1 = k then some v1 else optsGet rest k

/-- Python truthiness of an option value. -/
def truthy : OptVal → Bool
  | .b v => v
  | .n v => v != 0
  | .s v => v != ""

/-- Python's `opts.get(k, default)` under a boolean test. -/
def optsGetD (o : Opts) (k : String) (d : Bool) : Bool :=
  match optsGet o k with
  | some v => truthy v
  | none => d

/-- The single entry of the module's `malchecks` table: its display name. -/
def voipblCheckName : String := "VOIPBL Publicly Accessible PBX List"

/-- The single entry of the module's `malchecks` table: its list URL. -/
def voipblUrl : String := "http://www.voipbl.org/update"

/-- The class-level default option dict of `sfp_voipbl`. -/
def sfp_voipbl.defaultOpts : Opts :=
  [("checkaffiliates", OptVal.b true), ("cacheperiod", OptVal.n 18),
   ("checknetblocks", OptVal.b true), ("checksubnets", OptVal.b true)]

/-- `sfp_voipbl.watchedEvents()`. -/
def sfp_voipbl.watchedEvents : List String :=
  ["IP_ADDRESS", "NETBLOCK_MEMBER", "AFFILIATE_IPADDR", "NETBLOCK_OWNER"]

/-- `sfp_voipbl.producedEvents()`. -/
def sfp_voipbl.producedEvents : List String :=
  ["MALICIOUS_IPADDR", "MALICIOUS_AFFILIATE_IPADDR", "MALICIOUS_SUBNET", "MALICIOUS_NETBLOCK"]

/-- State held on the `sfp_voipbl` *class object*.  In Python, `opts` is a
class attribute and `self.opts[opt] = userOpts[opt]` mutates that shared
dict in place, so it is shared by every instance of the class within one
process. -/
structure VoipblClassState where
  opts : Opts
deriving DecidableEq, Repr

/-- Per-instance state: `self.results = self.tempStorage()` rebinds an
instance attribute, so `results` is private to one module instance. -/
structure VoipblInstanceState where
  results : List String
deriving DecidableEq, Repr

/-- `sfp_voipbl.setup(sfc, userOpts)`: allocates a fresh empty `results`
dedup store for the instance and writes every `userOpts` entry into the
shared class-level `opts` dict.  It returns the mutated class state paired
with the instance state of the freshly set-up instance. -/
def sfp_voipbl.setup (cls : VoipblClassState) (userOpts : Opts) :
    VoipblClassState × VoipblInstanceState :=
  (⟨userOpts.foldl (fun o kv => optsSet o kv.1 kv.2) cls.opts⟩, ⟨[]⟩)

/-! ## sfp_voipbl: list-resource checking

The module's only `malchecks` entry carries the regex `'{0}\/'` (in words:
the formatted target followed by a slash).  For netblock targets the
placeholder is replaced by a dotted-quad matcher capturing an IP address;
for single-value targets the target itself is substituted and the line is
matched with `re.match` under `re.IGNORECASE`. -/

/-- One pattern character of the formatted regex against one text character:
`.` in the target acts as the regex wildcard; other characters match
case-insensitively (the module compiles with `re.IGNORECASE`).  Faithful for
targets built from digits, dots and letters, which is all this module
formats into the pattern. -/
def patCharMatches (p c : Char) : Bool :=
  if p = '.' then true else p.toLower = c.toLower

/-- Anchored match (`re.match`) of the formatted pattern "target followed by
a slash" against a line. -/
def matchPat : List Char → List Char → Bool
  | [], '/' :: _ => true
  | [], _ => false
  | _ :: _, [] => false
  | p :: ps, c :: cs => patCharMatches p c && matchPat ps cs

/-- `re.match(rxTgt, line, re.IGNORECASE)` for `rxTgt` formatted from the
target, as done in `resourceList` for non-netblock targets. -/
def matchTargetSlash (target : String) (line : List Char) : Bool :=
  matchPat target.data line

/-- Split a character list into the maximal leading digit run and the rest. -/
def takeDigits : List Char → List Char × List Char
  | [] => ([], [])
  | c :: cs =>
    if c.isDigit then
      let p := takeDigits cs
      (c :: p.1, p.2)
    else ([], c :: cs)

/-- Match the netblock-mode candidate pattern — a dotted quad of digit runs
followed by a slash — at the start of a character list, returning the
captured dotted quad.  For this pattern the regex engine's greedy `\d+`
semantics coincide with maximal munch. -/
def matchIpSlashAt (cs : List Char) : Option (List Char) :=
  let p1 := takeDigits cs
  if p1.1 = [] then none else
  match p1.2 with
  | '.' :: r1 =>
    let p2 := takeDigits r1
    if p2.1 = [] then none else
    match p2.2 with
    | '.' :: r2 =>
      let p3 := takeDigits r2
      if p3.1 = [] then none else
      match p3.2 with
      | '.' :: r3 =>
        let p4 := takeDigits r3
        if p4.1 = [] then none else
        match p4.2 with
        | '/' :: _ => some (p1.1 ++ '.' :: p2.1 ++ '.' :: p3.1 ++ '.' :: p4.1)
        | _ => none
      | _ => none
    | _ => none
  | _ => none

/-- `re.findall(pat, line)` restricted to the first match (the code uses
only `grp[0]`): try the pattern at each position, leftmost first. -/
def findIpSlash : List Char → Option (List Char)
  | [] => none
  | c :: cs =>
    match matchIpSlashAt (c :: cs) with
    | some ip => some ip
    | none => findIpSlash cs

/-- The netblock-mode candidate list of `resourceList`: for each line of the
fetched content, the first captured dotted quad, if any. -/
def extractCandidates (content : String) : List (List Char) :=
  (splitOnChar '\n' content.data).filterMap findIpSlash

/-- The per-candidate loop of `resourceList`'s netblock branch: skip
candidates shorter than 8 characters or starting with `#`, strip, parse,
and return the check's URL at the first candidate contained in the target
netblock; parse failures skip the candidate.  Note the loop consults no
stop signal. -/
def netblockScan (target : String) : List (List Char) → Option String
  | [] => none
  | ip :: rest =>
    if ip.length < 8 ∨ ip.head? = some '#' then netblockScan target rest
    else
      match parseIPv4Chars (trimChars ip), parseIPNetworkChars target.data with
      | some a, some net =>
        if inNetwork a net then some voipblUrl else netblockScan target rest
      | _, _ => netblockScan target rest

/-- Acceptance of one candidate record by the per-candidate loop of
`resourceList`'s netblock branch: not skipped, both parses succeed, and the
address lies in the target netblock.  One step of `netblockScan` returns
the URL exactly when this holds of the head candidate. -/
def candMatches (target : String) (ip : List Char) : Bool :=
  if ip.length < 8 ∨ ip.head? = some '#' then false
  else
    match parseIPv4Chars (trimChars ip), parseIPNetworkChars target.data with
    | some a, some net => inNetwork a net
    | _, _ => false

/-- The single-value branch of `resourceList`: anchored regex match of the
formatted target against each line, returning the check's URL on the first
matching line.  (The `targetType == "domain"` disjunct of the source is
vacuous here: `lookupItem` only reaches `resourceList` with item types
`ip` or `netblock`, the `checks` list of the one `malchecks` entry.) -/
def regexScan (target : String) : List (List Char) → Option String
  | [] => none
  | line :: rest =>
    if matchTargetSlash target line then some voipblUrl else regexScan target rest

/-- `sfp_voipbl.resourceList(id, target, targetType)` for the one check
`_voipbl`.  The cache/fetch sequence is collapsed into the `content`
argument: `none` models a failed fetch with no cached copy (the source then
logs and returns `None`); `some c` is the list body from cache or fetch. -/
def sfp_voipbl.resourceList (target targetType : String) (content : Option String) :
    Option String :=
  match content with
  | none => none
  | some c =>
    if targetType = "netblock" then netblockScan target (extractCandidates c)
    else regexScan target (splitOnChar '\n' c.data)

/-- `sfp_voipbl.lookupItem(resourceId, itemType, target)`: the one check has
`checks = ['ip', 'netblock']`, so only those item types reach
`resourceList`. -/
def sfp_voipbl.lookupItem (itemType target : String) (content : Option String) :
    Option String :=
  if itemType = "ip" ∨ itemType = "netblock" then
    sfp_voipbl.resourceList target itemType content
  else none

/-- The `typeId` selected by the chain of `if` statements in `handleEvent`;
`none` for event types that leave the variable unbound (unreachable through
`watchedEvents` dispatch — the source would raise there). -/
def typeIdFor (eventName : String) : Option String :=
  if eventName = "IP_ADDRESS" ∨ eventName = "AFFILIATE_IPADDR" then some "ip"
  else if eventName = "BGP_AS_OWNER" ∨ eventName = "BGP_AS_MEMBER" then some "asn"
  else if eventName = "INTERNET_NAME" ∨ eventName = "CO_HOSTED_SITE" ∨
      eventName = "AFFILIATE_INTERNET_NAME" then some "domain"
  else if eventName = "NETBLOCK_OWNER" ∨ eventName = "NETBLOCK_MEMBER" then some "netblock"
  else none

/-- The produced event type selected by the same chain of `if` statements. -/
def evtTypeFor (eventName : String) : Option String :=
  if eventName = "IP_ADDRESS" then some "MALICIOUS_IPADDR"
  else if eventName = "AFFILIATE_IPADDR" then some "MALICIOUS_AFFILIATE_IPADDR"
  else if eventName = "BGP_AS_OWNER" ∨ eventName = "BGP_AS_MEMBER" then some "MALICIOUS_ASN"
  else if eventName = "INTERNET_NAME" then some "MALICIOUS_INTERNET_NAME"
  else if eventName = "AFFILIATE_INTERNET_NAME" then some "MALICIOUS_AFFILIATE_INTERNET_NAME"
  else if eventName = "CO_HOSTED_SITE" then some "MALICIOUS_COHOST"
  else if eventName = "NETBLOCK_OWNER" then some "MALICIOUS_NETBLOCK"
  else if eventName = "NETBLOCK_MEMBER" then some "MALICIOUS_SUBNET"
  else none

/-- A SpiderFoot event as seen by the module: type, data payload, producing
module. -/
structure SFEvent where
  eventType : String
  data : String
  module : String
deriving DecidableEq, Repr

/-- Observable outcome of one `handleEvent` call: the updated per-instance
`results` dedup store, the events passed to `notifyListeners`, the number
of `checkForStop()` polls performed, and the number of `lookupItem`
look-ups performed. -/
structure HEOut where
  results : List String
  emitted : List SFEvent
  polls : Nat
  lookups : Nat
deriving DecidableEq, Repr

/-- `sfp_voipbl.handleEvent(event)`.  Control flow mirrors the source: the
`results` dedup check and insertion, the four option gates, the
`typeId`/`evtType` selection, one `lookupItem` per `malchecks` entry (there
is exactly one entry), a single `checkForStop()` poll after the look-up,
and the emission of one event carrying the check name, the event data and
the list URL when the look-up returned a URL.  `stop` is the value the
cooperative-stop signal has when polled; `content` stands for the fetched
or cached list body. -/
def sfp_voipbl.handleEvent (opts : Opts) (results : List String) (ev : SFEvent)
    (content : Option String) (stop : Bool) : HEOut :=
  if ev.data ∈ results then ⟨results, [], 0, 0⟩
  else
    let results1 := ev.data :: results
    if ev.eventType = "CO_HOSTED_SITE" ∧ optsGetD opts "checkcohosts" false = false then
      ⟨results1, [], 0, 0⟩
    else if ev.eventType = "AFFILIATE_IPADDR" ∧
        optsGetD opts "checkaffiliates" false = false then
      ⟨results1, [], 0, 0⟩
    else if ev.eventType = "NETBLOCK_OWNER" ∧
        optsGetD opts "checknetblocks" false = false then
      ⟨results1, [], 0, 0⟩
    else if ev.eventType = "NETBLOCK_MEMBER" ∧
        optsGetD opts "checksubnets" false = false then
      ⟨results1, [], 0, 0⟩
    else
      match typeIdFor ev.eventType, evtTypeFor ev.eventType with
      | some tid, some evtType =>
        match sfp_voipbl.lookupItem tid ev.data content with
        | some u =>
          if stop then ⟨results1, [], 1, 1⟩
          else
            ⟨results1,
             [⟨evtType,
               voipblCheckName ++ " [" ++ ev.data ++ "]\n<SFURL>" ++ u ++ "</SFURL>",
               "sfp_voipbl"⟩], 1, 1⟩
        | none => ⟨results1, [], 1, 1⟩
      | _, _ => ⟨results1, [], 0, 0⟩

/-! ## Event store and false-positive handling (`resultsetfp`) -/

/-- One persisted scan result: its hash ID, the ID of its parent element
(`none` for the root) and its false-positive flag (`row[14]`). -/
structure ScanResult where
  id : String
  parent : Option String
  fp : Bool
deriving DecidableEq, Repr

/-- The persisted results of one scan. -/
abbrev Store := List ScanResult

/-- Look a result up by ID. -/
def findResult (store : Store) (i : String) : Option ScanResult :=
  store.find? (fun r => r.id == i)

/-- The parent ID of a result. -/
def parentOf (store : Store) (i : String) : Option String :=
  match findResult store i with
  | some r => r.parent
  | none => none

/-- Follow parent pointers upward, bounded by the given fuel. -/
def ancestorsFuel (store : Store) : Nat → String → List String
  | 0, _ => []
  | fuel + 1, i =>
    match parentOf store i with
    | some p => p :: ancestorsFuel store fuel p
    | none => []

/-- The ancestor chain of a result: every ID its parent chain passes
through.  Fuel `store.length` suffices for every well-formed (acyclic)
store. -/
def ancestors (store : Store) (i : String) : List String :=
  ancestorsFuel store store.length i

/-- Modelled from the spec: `scanElementChildrenAll(scanId, ids)` — "returns
the transitive closure of events whose parent chain passes through any of
the given IDs" (`SpiderFootDb` is not part of the excerpt). -/
def scanElementChildrenAll (store : Store) (ids : List String) : List String :=
  (store.filter (fun r => (ancestors store r.id).any (fun a => decide (a ∈ ids)))).map
    ScanResult.id

/-- Modelled from the spec: `scanElementSourcesDirect(scanId, ids)` — the
rows of the direct parent elements of the given IDs (`row[14]` is the
false-positive flag). -/
def scanElementSourcesDirect (store : Store) (ids : List String) : List ScanResult :=
  ids.filterMap (fun i => (parentOf store i).bind (findResult store))

/-- Modelled from the spec: `scanResultsUpdateFP(scanId, ids, fp)` — set the
false-positive flag of the named results. -/
def scanResultsUpdateFP (store : Store) (ids : List String) (flag : Bool) : Store :=
  store.map (fun r => if r.id ∈ ids then { r with fp := flag } else r)

/-- The responses `resultsetfp` can produce. -/
inductive FPResponse where
  | errorFlag
  | errorScanId
  | warnNotFinished
  | warnParentFP
  | success
deriving DecidableEq, Repr

/-- `SpiderFootWebUi.resultsetfp(id, resultids, fp)` over the store model.
`scanStatus` is `scanInstanceGet(id)[5]` (`none` when the scan ID is
unknown); `ids` is the parsed `resultids` list.  Mirrors the source:
reject a flag other than "0"/"1"; require a finished scan status; when
unflagging, reject if any *direct parent* row is flagged; otherwise update
the named IDs plus all their children. -/
def resultsetfp (store : Store) (scanStatus : Option String) (ids : List String)
    (fp : String) : FPResponse × Store :=
  if fp ≠ "0" ∧ fp ≠ "1" then (FPResponse.errorFlag, store)
  else
    match scanStatus with
    | none => (FPResponse.errorScanId, store)
    | some st =>
      if st ≠ "ABORTED" ∧ st ≠ "FINISHED" ∧ st ≠ "ERROR-FAILED" then
        (FPResponse.warnNotFinished, store)
      else if fp = "0" ∧ (scanElementSourcesDirect store ids).any (fun r => r.fp) then
        (FPResponse.warnParentFP, store)
      else
        let childs := scanElementChildrenAll store ids
        let allIds := ids ++ childs
        (FPResponse.success, scanResultsUpdateFP store allIds (fp = "1"))

/-! ## Module registry and dependency resolution (`startscan` / `rerunscan`) -/

/-- A registry entry: a module's name and its declared watched (consumed)
and produced event types. -/
structure SFModule where
  name : String
  watched : List String
  produced : List String
deriving DecidableEq, Repr

/-- The module registry, an ordered name-to-contract mapping. -/
abbrev Registry := List SFModule

/-- The names present in the registry. -/
def registryNames (reg : Registry) : List String := reg.map SFModule.name

/-- Modelled from the spec: `SpiderFoot.modulesProducing(types)` — "union of
all modules whose producedEvents() intersects the requested types" (the
`SpiderFoot` class is not part of the excerpt). -/
def modulesProducing (reg : Registry) (types : List String) : List String :=
  (reg.filter (fun m => m.produced.any (fun t => types.contains t))).map SFModule.name

/-- Modelled from the spec: `SpiderFoot.eventsToModules(mods)` — the event
types consumed by the given modules. -/
def eventsToModules (reg : Registry) (mods : List String) : List String :=
  (reg.filter (fun m => mods.contains m.name)).flatMap SFModule.watched

/-- One candidate module inside the expansion loop's inner `for`: append to
both `modlist` and `newmods` when not already selected. -/
def addMod (acc : List String × List String) (m : String) : List String × List String :=
  if m ∈ acc.1 then acc else (acc.1 ++ [m], acc.2 ++ [m])

/-- One round of the `while` loop in `startscan`'s type-based selection:
for every event type consumed by a delta module, consider every module
producing that type. -/
def expandRound (reg : Registry) (modlist newmods delta : List String) :
    List String × List String :=
  ((eventsToModules reg delta).flatMap (fun etype => modulesProducing reg [etype])).foldl
    addMod (modlist, newmods)

/-- The `while len(newmodcpy) > 0` loop of `startscan`, with explicit fuel;
`none` means the fuel ran out before the fixed point was reached.  The
state mirrors the source's three lists: `modlist` (all selected),
`newmods` (this round's accumulator) and `newmodcpy` (the delta being
scanned). -/
def expandLoop (reg : Registry) :
    Nat → List String → List String → List String → Option (List String)
  | 0, _, _, _ => none
  | fuel + 1, modlist, newmods, newmodcpy =>
    if newmodcpy = [] then some modlist
    else
      let p := expandRound reg modlist newmods newmodcpy
      expandLoop reg fuel p.1 [] p.2

/-- Type-based module selection of `startscan`: seed with the modules
producing the requested types, then expand transitively.  The fuel
`2 * |names| + 3` is proved sufficient below. -/
def typeSelect (reg : Registry) (types : List String) : Option (List String) :=
  let modlist := modulesProducing reg types
  expandLoop reg (2 * (registryNames reg).length + 3) modlist modlist modlist

/-- The policy tail of `startscan`: append the mandatory storage module if
absent, sort, then delete the first occurrence of the stdout module if
present. -/
def startscanModlistFinal (modlist : List String) : List String :=
  let m1 := if "sfp__stor_db" ∈ modlist then modlist else modlist ++ ["sfp__stor_db"]
  let m2 := sortStrings m1
  if "sfp__stor_stdout" ∈ m2 then m2.erase "sfp__stor_stdout" else m2

/-- The module list used by `rerunscan`: the scan's stored
`_modulesenabled` list (persisted comma-separated, taken here as the parsed
list) with the first occurrence of the stdout module removed.  Nothing is
appended and nothing is sorted. -/
def rerunscanModlist (modulesenabled : List String) : List String :=
  if "sfp__stor_stdout" ∈ modulesenabled then modulesenabled.erase "sfp__stor_stdout"
  else modulesenabled

/-- Full type-based resolution of `startscan`: selection, expansion, then
the policy tail. -/
def startscanTypeResolve (reg : Registry) (types : List String) : Option (List String) :=
  (typeSelect reg types).map startscanModlistFinal

/-- The three-module registry of the resolver scenario: `sfp_a` produces
`X` and consumes nothing, `sfp_b` consumes `X` and produces `Y`, and the
storage module consumes everything and produces nothing. -/
def demoRegistry : Registry :=
  [⟨"sfp_a", [], ["X"]⟩, ⟨"sfp_b", ["X"], ["Y"]⟩, ⟨"sfp__stor_db", ["*"], []⟩]

/-! ## Concrete instances used by counterexamples and witnesses -/

/-- A finished scan's store with chain a → b → c where a and c are flagged
false positive but the middle element b is not. -/
def fpCexStore : Store :=
  [⟨"a", none, true⟩, ⟨"b", some "a", false⟩, ⟨"c", some "b", true⟩]

/-- A store with a flagged parent: p (flagged) → c (not flagged). -/
def fpParentStore : Store :=
  [⟨"p", none, true⟩, ⟨"c", some "p", false⟩]

/-- A store with chain x → y, nothing flagged. -/
def fpChainStore : Store :=
  [⟨"x", none, false⟩, ⟨"y", some "x", false⟩]

/-- A fetched blocklist body with five candidate records, none inside
192.0.2.0/24. -/
def fiveCandidateContent : String :=
  "10.0.0.1/32\n10.0.0.2/32\n10.0.0.3/32\n10.0.0.4/32\n10.0.0.5/32"

/-! ## General lemmas about the embedded definitions -/

theorem chLe_total : ∀ a b : List Char, chLe a b = true ∨ chLe b a = true
  | [], _ => Or.inl rfl
  | _ :: _, [] => Or.inr rfl
  | a :: as, b :: bs => by
    rcases lt_trichotomy a b with h | h | h
    · left; simp [chLe, h]
    · subst h
      rcases chLe_total as bs with ih | ih
      · left; simp [chLe, ih]
      · right; simp [chLe, ih]
    · right; simp [chLe, h]

theorem chLe_trans : ∀ a b c : List Char,
    chLe a b = true → chLe b c = true → chLe a c = true
  | [], _, _, _, _ => rfl
  | _ :: _, [], _, h1, _ => by simp [chLe] at h1
  | _ :: _, _ :: _, [], _, h2 => by simp [chLe] at h2
  | a :: as, b :: bs, c :: cs, h1, h2 => by
    simp only [chLe] at h1 h2 ⊢
    by_cases hab : a < b
    · by_cases hbc : b < c
      · rw [if_pos (lt_trans hab hbc)]
      · by_cases hbc2 : b = c
        · subst hbc2; rw [if_pos hab]
        · rw [if_neg hbc, if_neg hbc2] at h2; exact absurd h2 (by simp)
    · by_cases hab2 : a = b
      · subst hab2
        rw [if_neg hab, if_pos rfl] at h1
        by_cases hac : a < c
        · rw [if_pos hac]
        · by_cases hac2 : a = c
          · subst hac2
            rw [if_neg hac, if_pos rfl] at h2 ⊢
            exact chLe_trans as bs cs h1 h2
          · rw [if_neg hac, if_neg hac2] at h2; exact absurd h2 (by simp)
      · rw [if_neg hab, if_neg hab2] at h1; exact absurd h1 (by simp)

theorem strLe_total (a b : String) : strLe a b = true ∨ strLe b a = true :=
  chLe_total a.data b.data

theorem strLe_trans (a b c : String) (h1 : strLe a b = true) (h2 : strLe b c = true) :
    strLe a c = true :=
  chLe_trans a.data b.data c.data h1 h2

theorem sortStrings_sorted (l : List String) :
    List.Sorted (fun a b => strLe a b = true) (sortStrings l) := by
  haveI : IsTotal String (fun a b => strLe a b = true) := ⟨strLe_total⟩
  haveI : IsTrans String (fun a b => strLe a b = true) := ⟨strLe_trans⟩
  exact List.sorted_insertionSort _ l

theorem sortStrings_perm (l : List String) : (sortStrings l).Perm l :=
  List.perm_insertionSort _ l

theorem optsGet_optsSet_ne (o : Opts) (k k1 : String) (v : OptVal) (h : k1 ≠ k) :
    optsGet (optsSet o k1 v) k = optsGet o k := by
  induction o with
  | nil => simp [optsSet, optsGet, h]
  | cons kv rest ih =>
    obtain ⟨k2, v2⟩ := kv
    simp only [optsSet]
    by_cases h2 : k2 = k1
    · subst h2
      rw [if_pos rfl]
      simp only [optsGet]
      rw [if_neg h, if_neg h]
    · rw [if_neg h2]
      by_cases h3 : k2 = k
      · simp [optsGet, h3]
      · simp only [optsGet, if_neg h3]
        exact ih

theorem optsGet_applyOpts_not_mem (u : Opts) (o : Opts) (k : String)
    (h : k ∉ u.map Prod.fst) :
    optsGet (u.foldl (fun acc kv => optsSet acc kv.1 kv.2) o) k = optsGet o k := by
  induction u generalizing o with
  | nil => rfl
  | cons kv rest ih =>
    obtain ⟨k1, v1⟩ := kv
    simp only [List.map_cons, List.mem_cons] at h
    push_neg at h
    simp only [List.foldl_cons]
    rw [ih _ h.2, optsGet_optsSet_ne o k k1 v1 (fun e => h.1 e.symm)]

theorem handleEvent_skip (opts : Opts) (results : List String) (ev : SFEvent)
    (c : Option String) (s : Bool) (h : ev.data ∈ results) :
    sfp_voipbl.handleEvent opts results ev c s = ⟨results, [], 0, 0⟩ := by
  unfold sfp_voipbl.handleEvent
  rw [if_pos h]

theorem handleEvent_mem (opts : Opts) (results : List String) (ev : SFEvent)
    (c : Option String) (s : Bool) :
    ev.data ∈ (sfp_voipbl.handleEvent opts results ev c s).results := by
  unfold sfp_voipbl.handleEvent
  by_cases h : ev.data ∈ results
  · rw [if_pos h]; exact h
  · rw [if_neg h]
    dsimp only
    repeat' split
    all_goals exact List.mem_cons_self _ _

theorem netblockScan_cons (target : String) (ip : List Char) (rest : List (List Char)) :
    netblockScan target (ip :: rest) =
      if candMatches target ip = true then some voipblUrl else netblockScan target rest := by
  have hbody : netblockScan target (ip :: rest) =
      (if ip.length < 8 ∨ ip.head? = some '#' then netblockScan target rest
       else
         match parseIPv4Chars (trimChars ip), parseIPNetworkChars target.data with
         | some a, some net =>
           if inNetwork a net then some voipblUrl else netblockScan target rest
         | _, _ => netblockScan target rest) := rfl
  rw [hbody]
  unfold candMatches
  by_cases hskip : ip.length < 8 ∨ ip.head? = some '#'
  · rw [if_pos hskip, if_pos hskip, if_neg (by simp)]
  · rw [if_neg hskip, if_neg hskip]
    rcases hp1 : parseIPv4Chars (trimChars ip) with _ | a <;>
      rcases hp2 : parseIPNetworkChars target.data with _ | net <;>
        simp [hp1, hp2]

theorem netblockScan_of_exists (target : String) :
    ∀ l : List (List Char), (∃ ip ∈ l, candMatches target ip = true) →
      netblockScan target l = some voipblUrl := by
  intro l
  induction l with
  | nil => rintro ⟨ip, h, _⟩; simp at h
  | cons ip rest ih =>
    rintro ⟨ip0, hmem, hc⟩
    rw [netblockScan_cons]
    by_cases hip : candMatches target ip = true
    · rw [if_pos hip]
    · rw [if_neg hip]
      apply ih
      rcases List.mem_cons.1 hmem with rfl | hm
      · exact absurd hc hip
      · exact ⟨ip0, hm, hc⟩

theorem foldl_addMod_append : ∀ (l : List String) (m d : List String),
    ∃ t, (l.foldl addMod (m, d)).1 = m ++ t ∧ (l.foldl addMod (m, d)).2 = d ++ t := by
  intro l
  induction l with
  | nil => intro m d; exact ⟨[], by simp, by simp⟩
  | cons a l ih =>
    intro m d
    simp only [List.foldl_cons]
    dsimp only [addMod]
    by_cases h : a ∈ m
    · rw [if_pos h]; exact ih m d
    · rw [if_neg h]
      rcases ih (m ++ [a]) (d ++ [a]) with ⟨t, h1, h2⟩
      refine ⟨a :: t, ?_, ?_⟩
      · rw [h1, List.append_assoc]; rfl
      · rw [h2, List.append_assoc]; rfl

theorem foldl_addMod_nodup : ∀ (l : List String) (m d : List String),
    m.Nodup → (l.foldl addMod (m, d)).1.Nodup := by
  intro l
  induction l with
  | nil => intro m d hm; exact hm
  | cons a l ih =>
    intro m d hm
    simp only [List.foldl_cons]
    dsimp only [addMod]
    by_cases h : a ∈ m
    · rw [if_pos h]; exact ih m d hm
    · rw [if_neg h]
      exact ih _ _ (((List.perm_append_singleton a m).nodup_iff).2
        (List.nodup_cons.2 ⟨h, hm⟩))

theorem foldl_addMod_subset (ns : List String) : ∀ (l : List String) (m d : List String),
    (∀ x ∈ l, x ∈ ns) → (∀ x ∈ m, x ∈ ns) →
    ∀ x ∈ (l.foldl addMod (m, d)).1, x ∈ ns := by
  intro l
  induction l with
  | nil => intro m d _ hm; exact hm
  | cons a l ih =>
    intro m d hl hm
    simp only [List.foldl_cons]
    dsimp only [addMod]
    by_cases h : a ∈ m
    · rw [if_pos h]
      exact ih m d (fun x hx => hl x (List.mem_cons_of_mem a hx)) hm
    · rw [if_neg h]
      refine ih _ _ (fun x hx => hl x (List.mem_cons_of_mem a hx)) ?_
      intro x hx
      rcases List.mem_append.1 hx with hx | hx
      · exact hm x hx
      · rw [List.mem_singleton.1 hx]
        exact hl a (List.mem_cons_self a l)

theorem modulesProducing_sublist (reg : Registry) (types : List String) :
    (modulesProducing reg types).Sublist (registryNames reg) :=
  List.Sublist.map SFModule.name (List.filter_sublist reg)

theorem mem_flat_names (reg : Registry) (d : List String) :
    ∀ x ∈ (eventsToModules reg d).flatMap (fun etype => modulesProducing reg [etype]),
      x ∈ registryNames reg := by
  intro x hx
  rcases List.mem_flatMap.1 hx with ⟨e, _, hx2⟩
  exact (modulesProducing_sublist reg [e]).subset hx2

theorem expandRound_spec (reg : Registry) (m nm d : List String) (hnd : m.Nodup)
    (hsub : ∀ x ∈ m, x ∈ registryNames reg) :
    ∃ t, (expandRound reg m nm d).1 = m ++ t ∧ (expandRound reg m nm d).2 = nm ++ t ∧
      (expandRound reg m nm d).1.Nodup ∧
      (∀ x ∈ (expandRound reg m nm d).1, x ∈ registryNames reg) := by
  unfold expandRound
  obtain ⟨t, h1, h2⟩ := foldl_addMod_append
    ((eventsToModules reg d).flatMap (fun etype => modulesProducing reg [etype])) m nm
  exact ⟨t, h1, h2, foldl_addMod_nodup _ m nm hnd,
    foldl_addMod_subset _ _ m nm (mem_flat_names reg d) hsub⟩

theorem length_le_of_nodup_subset {l ns : List String} (hn : l.Nodup)
    (hs : ∀ x ∈ l, x ∈ ns) : l.length ≤ ns.length := by
  calc l.length = l.toFinset.card := (List.toFinset_card_of_nodup hn).symm
    _ ≤ ns.toFinset.card := Finset.card_le_card
        (fun x hx => List.mem_toFinset.2 (hs x (List.mem_toFinset.1 hx)))
    _ ≤ ns.length := List.toFinset_card_le ns

theorem expandLoop_isSome (reg : Registry) : ∀ (fuel : Nat) (m nm d : List String),
    m.Nodup → (∀ x ∈ m, x ∈ registryNames reg) →
    2 * ((registryNames reg).length - m.length) + 2 + (if nm = [] then 0 else 1) ≤ fuel →
    (expandLoop reg fuel m nm d).isSome := by
  intro fuel
  induction fuel with
  | zero =>
    intro m nm d _ _ hfuel
    split at hfuel <;> omega
  | succ f ih =>
    intro m nm d hnd hsub hfuel
    unfold expandLoop
    by_cases hd : d = []
    · rw [if_pos hd]; rfl
    · rw [if_neg hd]
      dsimp only
      obtain ⟨t, ht1, ht2, hnd2, hsub2⟩ := expandRound_spec reg m nm d hnd hsub
      have hlen2 : (expandRound reg m nm d).1.length ≤ (registryNames reg).length :=
        length_le_of_nodup_subset hnd2 hsub2
      by_cases ht : t = []
      · subst ht
        by_cases hnm : nm = []
        · have h2 : (expandRound reg m nm d).2 = [] := by rw [ht2, hnm]; rfl
          have hf1 : f ≠ 0 := by
            rw [if_pos hnm] at hfuel; omega
          obtain ⟨f1, rfl⟩ := Nat.exists_eq_succ_of_ne_zero hf1
          rw [h2]
          unfold expandLoop
          rw [if_pos rfl]
          rfl
        · apply ih _ _ _ hnd2 hsub2
          rw [ht1, List.append_nil, if_pos rfl]
          rw [if_neg hnm] at hfuel
          omega
      · apply ih _ _ _ hnd2 hsub2
        have hlt : 0 < t.length := List.length_pos.2 ht
        rw [ht1, List.length_append] at hlen2 ⊢
        rw [if_pos rfl]
        split at hfuel <;> omega

theorem typeSelect_isSome_of_nodup (reg : Registry) (types : List String)
    (h : (registryNames reg).Nodup) : (typeSelect reg types).isSome := by
  unfold typeSelect
  apply expandLoop_isSome reg _ _ _ _
    (List.Nodup.sublist (modulesProducing_sublist reg types) h)
    (fun x hx => (modulesProducing_sublist reg types).subset hx)
  split <;> omega

/-! ## Claim theorems -/

/-- C1 counterexample: in the store a → b → c with a and c flagged but b
not, unflagging c is accepted and c's flag is cleared even though its
ancestor a is still flagged — the code checks only the direct parent
(`scanElementSourcesDirect`), not the full ancestor chain, so the claim as
stated is false. -/
theorem resultsetfp_unflag_ancestor_cex :
    ("a" ∈ ancestors fpCexStore "c") ∧
    findResult fpCexStore "a" = some ⟨"a", none, true⟩ ∧
    (resultsetfp fpCexStore (some "FINISHED") ["c"] "0").1 = FPResponse.success ∧
    findResult (resultsetfp fpCexStore (some "FINISHED") ["c"] "0").2 "c" =
      some ⟨"c", some "b", false⟩ := by
  decide

/-- C1 (amended): an unflag request on a finished scan is rejected with a
warning, and no result is modified, when some *direct parent* of a target
ID is still flagged as a false positive. -/
theorem resultsetfp_unflag_direct_parent_guard (store : Store) (st : String)
    (ids : List String)
    (hst : st = "ABORTED" ∨ st = "FINISHED" ∨ st = "ERROR-FAILED")
    (hpar : (scanElementSourcesDirect store ids).any (fun r => r.fp) = true) :
    resultsetfp store (some st) ids "0" = (FPResponse.warnParentFP, store) := by
  have hstatus : ¬(st ≠ "ABORTED" ∧ st ≠ "FINISHED" ∧ st ≠ "ERROR-FAILED") := by
    rcases hst with rfl | rfl | rfl
    · exact fun hcon => hcon.1 rfl
    · exact fun hcon => hcon.2.1 rfl
    · exact fun hcon => hcon.2.2 rfl
  unfold resultsetfp
  rw [if_neg (by decide)]
  dsimp only
  rw [if_neg hstatus, if_pos ⟨rfl, hpar⟩]

/-- Witness for the amended C1 theorem at the store p (flagged) → c. -/
theorem resultsetfp_unflag_direct_parent_guard_wit :
    resultsetfp fpParentStore (some "FINISHED") ["c"] "0" =
      (FPResponse.warnParentFP, fpParentStore) :=
  resultsetfp_unflag_direct_parent_guard fpParentStore "FINISHED" ["c"]
    (Or.inr (Or.inl rfl)) (by decide)

/-- C2 counterexample: scan 1 sets up the module with the per-scan override
cacheperiod := 5; scan 2 sets up a fresh instance with no override, yet
observes cacheperiod = 5 instead of the default 18 — `setup` applies
`userOpts` on top of the shared class-level `opts` dict and never resets
it, so option overrides survive between scans. -/
theorem setup_option_override_persists_cex :
    optsGet (sfp_voipbl.setup
        (sfp_voipbl.setup ⟨sfp_voipbl.defaultOpts⟩ [("cacheperiod", OptVal.n 5)]).1
        []).1.opts "cacheperiod" = some (OptVal.n 5) ∧
    optsGet sfp_voipbl.defaultOpts "cacheperiod" = some (OptVal.n 18) ∧
    (some (OptVal.n 5) ≠ some (OptVal.n 18)) := by
  decide

/-- C2 (amended): `setup` does reset the dedup cache — the fresh instance's
`results` store is always empty — but it does not reset the option state:
any key not overridden by the new scan's `userOpts` keeps the value left in
the shared class-level dict by the previous scan. -/
theorem setup_resets_dedup_not_opts (cls : VoipblClassState) (u : Opts) (k : String)
    (h : k ∉ u.map Prod.fst) :
    (sfp_voipbl.setup cls u).2.results = [] ∧
    optsGet (sfp_voipbl.setup cls u).1.opts k = optsGet cls.opts k :=
  ⟨rfl, optsGet_applyOpts_not_mem u cls.opts k h⟩

/-- Witness for the amended C2 theorem: a class dict already carrying
cacheperiod = 5 and a second setup with no overrides. -/
theorem setup_resets_dedup_not_opts_wit :
    (sfp_voipbl.setup ⟨[("cacheperiod", OptVal.n 5)]⟩ []).2.results = [] ∧
    optsGet (sfp_voipbl.setup ⟨[("cacheperiod", OptVal.n 5)]⟩ []).1.opts "cacheperiod" =
      optsGet [("cacheperiod", OptVal.n 5)] "cacheperiod" :=
  setup_resets_dedup_not_opts ⟨[("cacheperiod", OptVal.n 5)]⟩ [] "cacheperiod" (by decide)

/-- C3 counterexample: on a rerun the stored module list is reused as-is
(minus the stdout module): for the stored list [sfp_b, sfp_a] the final
list does not contain the mandatory persistence module sfp__stor_db and is
not sorted, so the claim fails for reruns. -/
theorem rerun_modlist_unchanged_cex :
    rerunscanModlist ["sfp_b", "sfp_a"] = ["sfp_b", "sfp_a"] ∧
    "sfp__stor_db" ∉ rerunscanModlist ["sfp_b", "sfp_a"] ∧
    ¬ List.Sorted (fun a b => strLe a b = true) (rerunscanModlist ["sfp_b", "sfp_a"]) := by
  decide

/-- C3 (amended): on a new scan start the final list contains sfp__stor_db,
is sorted, and — provided the resolved list contained sfp__stor_stdout at
most once — does not contain sfp__stor_stdout; on a rerun only the first
occurrence of sfp__stor_stdout is removed from the stored list: in
particular sfp__stor_db is not appended. -/
theorem startscan_modlist_policy (ml ml2 : List String)
    (h1 : ml.count "sfp__stor_stdout" ≤ 1)
    (h2 : "sfp__stor_db" ∉ ml2) :
    "sfp__stor_db" ∈ startscanModlistFinal ml ∧
    List.Sorted (fun a b => strLe a b = true) (startscanModlistFinal ml) ∧
    "sfp__stor_stdout" ∉ startscanModlistFinal ml ∧
    "sfp__stor_db" ∉ rerunscanModlist ml2 := by
  have hrr : "sfp__stor_db" ∉ rerunscanModlist ml2 := by
    unfold rerunscanModlist
    split
    · exact fun hx => h2 (List.mem_of_mem_erase hx)
    · exact h2
  unfold startscanModlistFinal
  dsimp only
  have hdb1 : "sfp__stor_db" ∈
      (if "sfp__stor_db" ∈ ml then ml else ml ++ ["sfp__stor_db"]) := by
    split
    · assumption
    · exact List.mem_append_right _ (List.mem_singleton.2 rfl)
  have hperm := sortStrings_perm (if "sfp__stor_db" ∈ ml then ml else ml ++ ["sfp__stor_db"])
  have hdb2 : "sfp__stor_db" ∈
      sortStrings (if "sfp__stor_db" ∈ ml then ml else ml ++ ["sfp__stor_db"]) :=
    hperm.mem_iff.2 hdb1
  have hsort2 := sortStrings_sorted (if "sfp__stor_db" ∈ ml then ml else ml ++ ["sfp__stor_db"])
  have hcnt : (sortStrings
      (if "sfp__stor_db" ∈ ml then ml else ml ++ ["sfp__stor_db"])).count
        "sfp__stor_stdout" ≤ 1 := by
    rw [hperm.count_eq]
    split
    · exact h1
    · rw [List.count_append,
        show List.count "sfp__stor_stdout" ["sfp__stor_db"] = 0 from by decide]
      omega
  by_cases hmem : "sfp__stor_stdout" ∈
      sortStrings (if "sfp__stor_db" ∈ ml then ml else ml ++ ["sfp__stor_db"])
  · rw [if_pos hmem]
    refine ⟨(List.mem_erase_of_ne (by decide)).2 hdb2,
      List.Pairwise.sublist (List.erase_sublist _ _) hsort2, ?_, hrr⟩
    refine List.count_eq_zero.1 ?_
    rw [List.count_erase_self]
    omega
  · rw [if_neg hmem]
    exact ⟨hdb2, hsort2, hmem, hrr⟩

/-- Witness for the amended C3 theorem. -/
theorem startscan_modlist_policy_wit :
    "sfp__stor_db" ∈ startscanModlistFinal ["sfp_voipbl"] ∧
    List.Sorted (fun a b => strLe a b = true) (startscanModlistFinal ["sfp_voipbl"]) ∧
    "sfp__stor_stdout" ∉ startscanModlistFinal ["sfp_voipbl"] ∧
    "sfp__stor_db" ∉ rerunscanModlist ["sfp_b", "sfp_a"] :=
  startscan_modlist_policy ["sfp_voipbl"] ["sfp_b", "sfp_a"] (by decide) (by decide)

/-- C4 counterexample: during one `handleEvent` run that scans a blocklist
of five candidate records, the cooperative-stop signal is polled exactly
once (after the whole look-up, before emission) — in particular it is not
checked between per-candidate containment checks, which for five
candidates would require at least two polls. -/
theorem handleEvent_no_poll_in_candidate_loop_cex :
    (extractCandidates fiveCandidateContent).length = 5 ∧
    (sfp_voipbl.handleEvent sfp_voipbl.defaultOpts []
        ⟨"NETBLOCK_OWNER", "192.0.2.0/24", "m"⟩ (some fiveCandidateContent) false).polls = 1 ∧
    ¬ 2 ≤ (sfp_voipbl.handleEvent sfp_voipbl.defaultOpts []
        ⟨"NETBLOCK_OWNER", "192.0.2.0/24", "m"⟩ (some fiveCandidateContent) false).polls := by
  decide

/-- C4 (amended): `handleEvent` polls the stop signal at most once per call
(once per `malchecks` entry, after the look-up and before emitting), and
when the signal is set at that poll the call emits no events. -/
theorem handleEvent_stop_no_emit (opts : Opts) (results : List String) (ev : SFEvent)
    (c : Option String) :
    (sfp_voipbl.handleEvent opts results ev c true).emitted = [] ∧
    ∀ s : Bool, (sfp_voipbl.handleEvent opts results ev c s).polls ≤ 1 := by
  constructor
  · unfold sfp_voipbl.handleEvent
    repeat' split
    all_goals simp_all
  · intro s
    unfold sfp_voipbl.handleEvent
    repeat' split
    all_goals simp

/-- C5 counterexample: the spec's scenario — target 192.0.2.1 classified as
an IP address, blocklist holding the line 192.0.2.0/24 — produces no event
at all: for IP-typed inputs the module does an anchored regex match of the
target itself against each line, not a CIDR containment check, and
"192.0.2.1/" does not match the line "192.0.2.0/24". -/
theorem ip_target_cidr_scenario_cex :
    (sfp_voipbl.handleEvent sfp_voipbl.defaultOpts []
        ⟨"IP_ADDRESS", "192.0.2.1", "m"⟩ (some "192.0.2.0/24") false).emitted = [] ∧
    (sfp_voipbl.handleEvent sfp_voipbl.defaultOpts []
        ⟨"IP_ADDRESS", "192.0.2.1", "m"⟩ (some "192.0.2.0/24") false).emitted.length ≠ 1 := by
  decide

/-- C5 (amended): CIDR containment applies to the netblock-typed inputs
NETBLOCK_OWNER / NETBLOCK_MEMBER: when the fetched blocklist contains at
least one acceptable candidate record contained in the input netblock, a
fresh (not yet deduplicated) event with default options and an unset stop
signal yields exactly one emitted event of the corresponding malicious
type whose payload carries the source list's reference URL; the scan stops
at the first containment match. -/
theorem netblock_first_match_single_event (results : List String) (ev : SFEvent)
    (c : String)
    (hty : ev.eventType = "NETBLOCK_OWNER" ∨ ev.eventType = "NETBLOCK_MEMBER")
    (hnew : ev.data ∉ results)
    (hmatch : ∃ ip ∈ extractCandidates c, candMatches ev.data ip = true) :
    (sfp_voipbl.handleEvent sfp_voipbl.defaultOpts results ev (some c) false).emitted =
      [⟨if ev.eventType = "NETBLOCK_OWNER" then "MALICIOUS_NETBLOCK" else "MALICIOUS_SUBNET",
        voipblCheckName ++ " [" ++ ev.data ++ "]\n<SFURL>" ++ voipblUrl ++ "</SFURL>",
        "sfp_voipbl"⟩] := by
  obtain ⟨ty, d, md⟩ := ev
  have hurl : sfp_voipbl.lookupItem "netblock" d (some c) = some voipblUrl := by
    unfold sfp_voipbl.lookupItem sfp_voipbl.resourceList
    rw [if_pos (Or.inr rfl)]
    dsimp only
    rw [if_pos rfl]
    exact netblockScan_of_exists d (extractCandidates c) hmatch
  rcases hty with hty | hty
  · simp only at hty
    subst hty
    unfold sfp_voipbl.handleEvent
    rw [if_neg hnew]
    dsimp only
    rw [if_neg (by decide), if_neg (by decide), if_neg (by decide), if_neg (by decide)]
    rw [show typeIdFor "NETBLOCK_OWNER" = some "netblock" from by decide,
      show evtTypeFor "NETBLOCK_OWNER" = some "MALICIOUS_NETBLOCK" from by decide]
    dsimp only
    rw [hurl]
    simp
  · simp only at hty
    subst hty
    unfold sfp_voipbl.handleEvent
    rw [if_neg hnew]
    dsimp only
    rw [if_neg (by decide), if_neg (by decide), if_neg (by decide), if_neg (by decide)]
    rw [show typeIdFor "NETBLOCK_MEMBER" = some "netblock" from by decide,
      show evtTypeFor "NETBLOCK_MEMBER" = some "MALICIOUS_SUBNET" from by decide]
    dsimp only
    rw [hurl]
    simp

/-- Witness for the amended C5 theorem: netblock 192.0.2.0/24 against a
list holding the candidate record 192.0.2.100/32. -/
theorem netblock_first_match_single_event_wit :
    (sfp_voipbl.handleEvent sfp_voipbl.defaultOpts []
        ⟨"NETBLOCK_OWNER", "192.0.2.0/24", "m"⟩ (some "192.0.2.100/32") false).emitted =
      [⟨if (SFEvent.mk "NETBLOCK_OWNER" "192.0.2.0/24" "m").eventType = "NETBLOCK_OWNER" then
          "MALICIOUS_NETBLOCK" else "MALICIOUS_SUBNET",
        voipblCheckName ++ " [" ++ "192.0.2.0/24" ++ "]\n<SFURL>" ++ voipblUrl ++ "</SFURL>",
        "sfp_voipbl"⟩] :=
  netblock_first_match_single_event [] ⟨"NETBLOCK_OWNER", "192.0.2.0/24", "m"⟩
    "192.0.2.100/32" (Or.inl rfl) (by decide) (by decide)

/-- C6: for the registry with exactly sfp_a (produces X, consumes
nothing), sfp_b (consumes X, produces Y) and the storage module, resolving
a scan request for output type Y selects exactly sfp_a, sfp_b and
sfp__stor_db (in the final sorted order). -/
theorem resolver_selects_transitive_closure :
    startscanTypeResolve demoRegistry ["Y"] = some ["sfp__stor_db", "sfp_a", "sfp_b"] := by
  decide

/-- C7: for every registry with distinct module names and every requested
type set, the transitive-expansion loop reaches its fixed point within the
provided fuel: already-selected modules are never re-added, so each round
either adds a fresh module (bounded by the registry size) or empties the
delta and terminates. -/
theorem typeSelect_terminates (reg : Registry) (types : List String)
    (h : (registryNames reg).Nodup) : (typeSelect reg types).isSome :=
  typeSelect_isSome_of_nodup reg types h

/-- Witness for C7 at the concrete three-module registry. -/
theorem typeSelect_terminates_wit : (typeSelect demoRegistry ["Y"]).isSome :=
  typeSelect_terminates demoRegistry ["Y"] (by decide)

/-- C8: flagging (fp = "1") a set of result IDs of a finished scan succeeds
and cascades: afterwards every named result and every result whose parent
chain passes through a named ID carries the false-positive flag. -/
theorem resultsetfp_flag_cascades (store : Store) (st : String) (ids : List String)
    (hst : st = "ABORTED" ∨ st = "FINISHED" ∨ st = "ERROR-FAILED") :
    (resultsetfp store (some st) ids "1").1 = FPResponse.success ∧
    ∀ r ∈ (resultsetfp store (some st) ids "1").2,
      (r.id ∈ ids ∨ ∃ a ∈ ancestors store r.id, a ∈ ids) → r.fp = true := by
  have hstatus : ¬(st ≠ "ABORTED" ∧ st ≠ "FINISHED" ∧ st ≠ "ERROR-FAILED") := by
    rcases hst with rfl | rfl | rfl
    · exact fun hcon => hcon.1 rfl
    · exact fun hcon => hcon.2.1 rfl
    · exact fun hcon => hcon.2.2 rfl
  have hred : resultsetfp store (some st) ids "1" =
      (FPResponse.success,
        scanResultsUpdateFP store (ids ++ scanElementChildrenAll store ids) true) := by
    unfold resultsetfp
    rw [if_neg (by decide)]
    dsimp only
    rw [if_neg hstatus, if_neg (fun hcon => by exact absurd hcon.1 (by decide))]
    have : decide ((("1" : String)) = "1") = true := by decide
    simp [this]
  rw [hred]
  refine ⟨rfl, ?_⟩
  intro r hr hcond
  unfold scanResultsUpdateFP at hr
  rcases List.mem_map.1 hr with ⟨r0, hr0, rfl⟩
  by_cases hid : r0.id ∈ ids ++ scanElementChildrenAll store ids
  · rw [if_pos hid]
  · exfalso
    rw [if_neg hid] at hcond
    rcases hcond with hin | ⟨a, ha, hain⟩
    · exact hid (List.mem_append_left _ hin)
    · refine hid (List.mem_append_right _ ?_)
      unfold scanElementChildrenAll
      refine List.mem_map.2 ⟨r0, List.mem_filter.2 ⟨hr0, ?_⟩, rfl⟩
      exact List.any_eq_true.2 ⟨a, ha, by simp [hain]⟩

/-- Witness for C8 at the chain x → y with request ids = [x]. -/
theorem resultsetfp_flag_cascades_wit :
    (resultsetfp fpChainStore (some "FINISHED") ["x"] "1").1 = FPResponse.success ∧
    ∀ r ∈ (resultsetfp fpChainStore (some "FINISHED") ["x"] "1").2,
      (r.id ∈ ["x"] ∨ ∃ a ∈ ancestors fpChainStore r.id, a ∈ ["x"]) → r.fp = true :=
  resultsetfp_flag_cascades fpChainStore "FINISHED" ["x"] (Or.inr (Or.inl rfl))

/-- C9: delivering a second event with the same data as an already
processed one is a no-op: the call returns with the dedup store unchanged,
performs no look-up, no stop poll and emits nothing. -/
theorem handleEvent_dedup_second_call_noop (opts : Opts) (results : List String)
    (ev ev2 : SFEvent) (c c2 : Option String) (s s2 : Bool)
    (h : ev2.data = ev.data) :
    sfp_voipbl.handleEvent opts
        (sfp_voipbl.handleEvent opts results ev c s).results ev2 c2 s2 =
      ⟨(sfp_voipbl.handleEvent opts results ev c s).results, [], 0, 0⟩ :=
  handleEvent_skip opts _ ev2 c2 s2 (h ▸ handleEvent_mem opts results ev c s)

/-- Witness for C9: the same IP delivered twice. -/
theorem handleEvent_dedup_second_call_noop_wit :
    sfp_voipbl.handleEvent sfp_voipbl.defaultOpts
        (sfp_voipbl.handleEvent sfp_voipbl.defaultOpts []
          ⟨"IP_ADDRESS", "1.2.3.4", "m"⟩ none false).results
        ⟨"IP_ADDRESS", "1.2.3.4", "m2"⟩ none false =
      ⟨(sfp_voipbl.handleEvent sfp_voipbl.defaultOpts []
          ⟨"IP_ADDRESS", "1.2.3.4", "m"⟩ none false).results, [], 0, 0⟩ :=
  handleEvent_dedup_second_call_noop sfp_voipbl.defaultOpts []
    ⟨"IP_ADDRESS", "1.2.3.4", "m"⟩ ⟨"IP_ADDRESS", "1.2.3.4", "m2"⟩ none none false false rfl

/-- C10: the false-positive update rejects — with an error or warning and
without touching the store — any request whose flag is not "0"/"1" or
whose scan status is not one of ABORTED, FINISHED, ERROR-FAILED. -/
theorem resultsetfp_requires_finished_and_flag (store : Store) (st : String)
    (ids : List String) (fp : String)
    (h : (fp ≠ "0" ∧ fp ≠ "1") ∨
      (st ≠ "ABORTED" ∧ st ≠ "FINISHED" ∧ st ≠ "ERROR-FAILED")) :
    (resultsetfp store (some st) ids fp).2 = store ∧
    ((resultsetfp store (some st) ids fp).1 = FPResponse.errorFlag ∨
      (resultsetfp store (some st) ids fp).1 = FPResponse.warnNotFinished) := by
  unfold resultsetfp
  by_cases hf : fp ≠ "0" ∧ fp ≠ "1"
  · rw [if_pos hf]
    exact ⟨rfl, Or.inl rfl⟩
  · rw [if_neg hf]
    rcases h with h | h
    · exact absurd h hf
    · dsimp only
      rw [if_pos h]
      exact ⟨rfl, Or.inr rfl⟩

/-- Witness for C10: a RUNNING scan rejects the update and leaves the
store unchanged. -/
theorem resultsetfp_requires_finished_and_flag_wit :
    (resultsetfp fpChainStore (some "RUNNING") ["x"] "1").2 = fpChainStore ∧
    ((resultsetfp fpChainStore (some "RUNNING") ["x"] "1").1 = FPResponse.errorFlag ∨
      (resultsetfp fpChainStore (some "RUNNING") ["x"] "1").1 = FPResponse.warnNotFinished) :=
  resultsetfp_requires_finished_and_flag fpChainStore "RUNNING" ["x"] "1"
    (Or.inr (by decide))
